import Mathlib

/-!
Verification of the multi-agent cloud-architecture orchestration pipeline.

The Python source (`Test Agent Orchestration for Cloud Architecture
Planning.py`) defines five agents (RequirementsAgent, ComplianceAgent,
ArchitectureAgent, CostEstimationAgent, ReviewAgent), a shared
ResearchAgent lookup utility, and an Orchestrator that runs the agents in
sequence, accumulating their outputs into a growing context.

This file gives a shallow embedding of that program: Python dicts are
insertion-ordered association lists, Python values are a small inductive
`Value` type, exceptions are `Except String`, and each agent's `run`
method is a Lean function translated from the source.
-/

set_option autoImplicit false

namespace Orch

/-- Python values as they occur in this program: strings, ints, float
literals (carried as their decimal text, since the program never does
arithmetic on them), and lists.  Every list literal in the source and
every element ever appended to one is a string, so lists are embedded as
`List String`. -/
inductive Value where
  | vStr (s : String)
  | vNat (n : Nat)
  | vFloat (s : String)
  | vList (l : List String)
  deriving DecidableEq, Repr

/-- A Python dict with string keys, as an insertion-ordered association
list.  A dict built by the program always has pairwise-distinct keys. -/
abbrev PyDict (α : Type) : Type := List (String × α)

/-- `d[k]` lookup: first entry with key `k`, if any. -/
def dictGet {α : Type} (d : PyDict α) (k : String) : Option α :=
  match d with
  | [] => none
  | p :: rest => if p.1 = k then some p.2 else dictGet rest k

/-- Python `d.get(k, default)`. -/
def dictGetD {α : Type} (d : PyDict α) (k : String) (default : α) : α :=
  (dictGet d k).getD default

/-- Python `d[k] = v`: replace the value in place if the key is present
(keeping its position), otherwise append a new entry. -/
def dictInsert {α : Type} (d : PyDict α) (k : String) (v : α) : PyDict α :=
  if d.any (fun p => p.1 = k) then
    d.map (fun p => if p.1 = k then (k, v) else p)
  else
    d ++ [(k, v)]

/-- Python `{**a, **b}`: start from `a` and assign every entry of `b` in
order (right-biased on key collision, keys of `a` keep their position). -/
def dictMerge {α : Type} (a b : PyDict α) : PyDict α :=
  b.foldl (fun acc p => dictInsert acc p.1 p.2) a

/-- The key list of a dict, in order. -/
def dictKeys {α : Type} (d : PyDict α) : List String :=
  d.map (fun p => p.1)

@[simp] theorem dictKeys_nil {α : Type} : dictKeys ([] : PyDict α) = [] := rfl

@[simp] theorem dictKeys_cons {α : Type} (p : String × α) (d : PyDict α) :
    dictKeys (p :: d) = p.1 :: dictKeys d := rfl

/-- Substring containment, modelling Python `pat in s` on strings. -/
def strContainsSub (s pat : String) : Bool :=
  (List.range (s.length + 1)).any
    (fun i => List.take pat.length (List.drop i s.toList) = pat.toList)

/-- Python `x in v` for a string `x` and a program value `v`: list
membership for lists, substring test for strings, `TypeError` otherwise. -/
def pyInValue (x : String) (v : Value) : Except String Bool :=
  match v with
  | .vList l => .ok (l.contains x)
  | .vStr s => .ok (strContainsSub s x)
  | _ => .error "TypeError"

/-- The `context` variable of `Orchestrator.run` is annotated `Any`: it is
the raw problem string before the first stage runs and a dict afterwards. -/
inductive Ctx where
  | str (s : String)
  | dict (d : PyDict Value)
  deriving DecidableEq, Repr

/-- Key lookup on a context; a string context has no keys (Python would
raise on subscripting, but only key membership is ever asked of it here). -/
def ctxGet (c : Ctx) (k : String) : Option Value :=
  match c with
  | .str _ => none
  | .dict d => dictGet d k

/-- The `AgentResponse` dataclass: a stage name plus an output dict. -/
structure AgentResponse where
  name : String
  output : PyDict Value
  deriving DecidableEq, Repr

/-- An agent is anything with `run(context)`; a Python call may raise, so
the embedding returns `Except`. -/
abbrev Agent : Type := Ctx → Except String AgentResponse

/-- The fixed `simulated_results` mapping of `ResearchAgent.query`. -/
def simulated_results : PyDict String :=
  [("PCI-DSS", "Found compliance guidelines from AWS and GCP docs."),
   ("GDPR", "Retrieved GDPR checklist from official EU documentation."),
   ("Serverless", "Compared AWS Lambda vs Cloud Run performance for low-traffic apps."),
   ("Containers", "Fetched ECS vs GKE vs AKS comparison benchmark.")]

/-- `ResearchAgent.query`: return the stored summary for a known topic,
otherwise the fallback string naming the topic.  (The `print` call is a
trace and is not modelled.) -/
def ResearchAgent.query (topic : String) : String :=
  dictGetD simulated_results topic
    ("No relevant info found for \x27" ++ topic ++ "\x27.")

/-- `RequirementsAgent.run`: ignores its argument and returns a fixed
requirements dict. -/
def RequirementsAgent.run (_ : Ctx) : Except String AgentResponse :=
  .ok ⟨"RequirementsAgent",
    [("users_per_day", .vNat 1000),
     ("features", .vList ["catalog", "cart", "payment", "admin_dashboard"]),
     ("data_types", .vList ["user_profiles", "payment_info", "inventory"]),
     ("constraints", .vList ["scalable", "secure_payments", "low_ops"])]⟩

/-- `ComplianceAgent.run`: reads `data_types` (default `[]`), appends
"PCI-DSS" and a research note when `payment_info` is present, then "GDPR"
and a note when `user_profiles` is present; `compliance or ["None"]`
yields the `["None"]` sentinel when the list is empty.  Calling `.get` on
a non-dict context raises. -/
def ComplianceAgent.run (ctx : Ctx) : Except String AgentResponse :=
  match ctx with
  | .str _ => .error "AttributeError"
  | .dict requirements => do
    let data_types := dictGetD requirements "data_types" (.vList [])
    let hasPayment ← pyInValue "payment_info" data_types
    let hasProfiles ← pyInValue "user_profiles" data_types
    let compliance : List String :=
      (if hasPayment then ["PCI-DSS"] else []) ++
      (if hasProfiles then ["GDPR"] else [])
    let notes : List String :=
      (if hasPayment then [ResearchAgent.query "PCI-DSS"] else []) ++
      (if hasProfiles then [ResearchAgent.query "GDPR"] else [])
    .ok ⟨"ComplianceAgent",
      [("required_compliance",
        .vList (if compliance = [] then ["None"] else compliance)),
       ("security_controls",
        .vList ["Encryption at rest/in transit",
                "Least-privilege IAM",
                "WAF, audit logging"]),
       ("research_notes", .vList notes)]⟩

/-- `ArchitectureAgent.run`: picks "Serverless" when the `constraints`
field (default `[]`) contains `low_ops`, else "Containers"; queries the
researcher for the chosen pattern; inherits `security_controls` from the
context.  Calling `.get` on a non-dict context raises. -/
def ArchitectureAgent.run (ctx : Ctx) : Except String AgentResponse :=
  match ctx with
  | .str _ => .error "AttributeError"
  | .dict context => do
    let base := dictGetD context "constraints" (.vList [])
    let hasLowOps ← pyInValue "low_ops" base
    let arch_type := if hasLowOps then "Serverless" else "Containers"
    let reference := ResearchAgent.query arch_type
    .ok ⟨"ArchitectureAgent",
      [("pattern", .vStr arch_type),
       ("compute", .vStr (if arch_type = "Serverless" then "Serverless Functions"
                          else "Container Service")),
       ("database", .vStr "Managed PostgreSQL"),
       ("storage", .vStr "Object Storage"),
       ("network", .vStr "API Gateway + CDN"),
       ("security", dictGetD context "security_controls" (.vList [])),
       ("research_reference", .vStr reference)]⟩

/-- `CostEstimationAgent.run`: ignores its argument and returns a fixed
cost dict. -/
def CostEstimationAgent.run (_ : Ctx) : Except String AgentResponse :=
  .ok ⟨"CostEstimationAgent",
    [("monthly_estimate_usd", .vStr "~$120–150"),
     ("tier", .vStr "low-cost, scalable"),
     ("optimizations",
      .vList ["CDN caching for static assets",
              "Auto-suspend idle dev DBs",
              "Serverless pay-per-use model"])]⟩

/-- The constant risk list of `ReviewAgent.run`. -/
def ReviewAgent.risks : List String :=
  ["Cold starts (serverless)", "Vendor lock-in (managed DB)"]

/-- `ReviewAgent.run`: ignores its argument and returns the fixed score,
risks and summary string (the f-string rendered on those constants). -/
def ReviewAgent.run (_ : Ctx) : Except String AgentResponse :=
  .ok ⟨"ReviewAgent",
    [("overall_score", .vFloat "9.1"),
     ("risks", .vList ReviewAgent.risks),
     ("summary",
      .vStr ("Validated architecture with score 9.1/10. Risks: " ++
             String.intercalate ", " ReviewAgent.risks))]⟩

/-- One merge step of the orchestrator loop:
`{**context, **output} if isinstance(context, dict) else output`. -/
def stepCtx (ctx : Ctx) (output : PyDict Value) : Ctx :=
  match ctx with
  | .dict d => .dict (dictMerge d output)
  | .str _ => .dict output

/-- The loop body of `Orchestrator.run`, carrying the `results` dict and
the `context` variable; an exception from any agent propagates (there is
no handler in the source). -/
def Orchestrator.runAux (agents : List Agent) (ctx : Ctx)
    (results : PyDict (PyDict Value)) :
    Except String (PyDict (PyDict Value) × Ctx) :=
  match agents with
  | [] => .ok (results, ctx)
  | a :: rest =>
    match a ctx with
    | .error e => .error e
    | .ok resp =>
      Orchestrator.runAux rest (stepCtx ctx resp.output)
        (dictInsert results resp.name resp.output)

/-- `Orchestrator.__init__`: stores the agent list with no validation;
it never raises. -/
def Orchestrator.init (agents : List Agent) : Except String (List Agent) :=
  .ok agents

/-- `Orchestrator.run`: seeds the context with the raw problem string,
runs the agents in order and returns the `results` dict (stage name to
output).  Only `results` is returned; the final context is dropped. -/
def Orchestrator.run (agents : List Agent) (problem : String) :
    Except String (PyDict (PyDict Value)) :=
  (Orchestrator.runAux agents (Ctx.str problem) []).map (fun r => r.1)

/-- The value of the `context` loop variable when `Orchestrator.run`
finishes (a ghost observation of the same loop; the source drops it). -/
def Orchestrator.finalCtx (agents : List Agent) (problem : String) :
    Except String Ctx :=
  (Orchestrator.runAux agents (Ctx.str problem) []).map (fun r => r.2)

/-- Ghost trace of the same loop: the output dict each agent produced,
in execution order. -/
def outputsAux (agents : List Agent) (ctx : Ctx) :
    Except String (List (PyDict Value)) :=
  match agents with
  | [] => .ok []
  | a :: rest =>
    match a ctx with
    | .error e => .error e
    | .ok resp =>
      match outputsAux rest (stepCtx ctx resp.output) with
      | .error e => .error e
      | .ok os => .ok (resp.output :: os)

/-- Ghost trace of the same loop: the context each agent received, in
execution order. -/
def ctxsAux (agents : List Agent) (ctx : Ctx) :
    Except String (List Ctx) :=
  match agents with
  | [] => .ok []
  | a :: rest =>
    match a ctx with
    | .error e => .error e
    | .ok resp =>
      match ctxsAux rest (stepCtx ctx resp.output) with
      | .error e => .error e
      | .ok cs => .ok (ctx :: cs)

/-- Folding a list of stage outputs into a context with the loop's merge
step. -/
def applyOutputs (c : Ctx) (outs : List (PyDict Value)) : Ctx :=
  outs.foldl stepCtx c

/-- The agent sequence configured in `__main__` (the shared researcher is
stateless, so it needs no explicit plumbing). -/
def pipeline : List Agent :=
  [RequirementsAgent.run, ComplianceAgent.run, ArchitectureAgent.run,
   CostEstimationAgent.run, ReviewAgent.run]

/-- The stage names of the configured pipeline, in configured order. -/
def pipelineNames : List String :=
  ["RequirementsAgent", "ComplianceAgent", "ArchitectureAgent",
   "CostEstimationAgent", "ReviewAgent"]

/-! ## The concrete run of the configured pipeline

Every agent output below is what the corresponding `run` method produces
on the context it receives in the configured pipeline; all of them are
independent of the problem string, because `RequirementsAgent` ignores its
input and everything downstream is determined by the fixed outputs. -/

/-- The output of `RequirementsAgent` in the configured run. -/
def requirementsOutput : PyDict Value :=
  [("users_per_day", .vNat 1000),
   ("features", .vList ["catalog", "cart", "payment", "admin_dashboard"]),
   ("data_types", .vList ["user_profiles", "payment_info", "inventory"]),
   ("constraints", .vList ["scalable", "secure_payments", "low_ops"])]

/-- The output of `ComplianceAgent` in the configured run: both regulated
data categories are present, so both obligations and both notes appear. -/
def complianceOutput : PyDict Value :=
  [("required_compliance", .vList ["PCI-DSS", "GDPR"]),
   ("security_controls",
    .vList ["Encryption at rest/in transit", "Least-privilege IAM",
            "WAF, audit logging"]),
   ("research_notes",
    .vList ["Found compliance guidelines from AWS and GCP docs.",
            "Retrieved GDPR checklist from official EU documentation."])]

/-- The output of `ArchitectureAgent` in the configured run: `low_ops` is
among the constraints, so the Serverless pattern is chosen. -/
def architectureOutput : PyDict Value :=
  [("pattern", .vStr "Serverless"),
   ("compute", .vStr "Serverless Functions"),
   ("database", .vStr "Managed PostgreSQL"),
   ("storage", .vStr "Object Storage"),
   ("network", .vStr "API Gateway + CDN"),
   ("security",
    .vList ["Encryption at rest/in transit", "Least-privilege IAM",
            "WAF, audit logging"]),
   ("research_reference",
    .vStr "Compared AWS Lambda vs Cloud Run performance for low-traffic apps.")]

/-- The (constant) output of `CostEstimationAgent`. -/
def costOutput : PyDict Value :=
  [("monthly_estimate_usd", .vStr "~$120–150"),
   ("tier", .vStr "low-cost, scalable"),
   ("optimizations",
    .vList ["CDN caching for static assets",
            "Auto-suspend idle dev DBs",
            "Serverless pay-per-use model"])]

/-- The (constant) output of `ReviewAgent`. -/
def reviewOutput : PyDict Value :=
  [("overall_score", .vFloat "9.1"),
   ("risks", .vList ["Cold starts (serverless)", "Vendor lock-in (managed DB)"]),
   ("summary",
    .vStr ("Validated architecture with score 9.1/10. Risks: " ++
           "Cold starts (serverless), Vendor lock-in (managed DB)"))]

/-- The stage outputs of the configured run, in execution order. -/
def pipelineOutputs : List (PyDict Value) :=
  [requirementsOutput, complianceOutput, architectureOutput, costOutput,
   reviewOutput]

/-- The `results` dict that `Orchestrator.run` returns for the configured
pipeline. -/
def pipelineResults : PyDict (PyDict Value) :=
  [("RequirementsAgent", requirementsOutput),
   ("ComplianceAgent", complianceOutput),
   ("ArchitectureAgent", architectureOutput),
   ("CostEstimationAgent", costOutput),
   ("ReviewAgent", reviewOutput)]

/-- The final value of the `context` loop variable in the configured run:
the stage outputs concatenated, since no two stages share a field key,
and without the problem string (the string seed was replaced by the first
stage's output). -/
def pipelineFinalDict : PyDict Value :=
  requirementsOutput ++ complianceOutput ++ architectureOutput ++
    costOutput ++ reviewOutput

/-- The context each configured stage receives: the raw problem string
for the first stage, then the accumulated outputs of the earlier stages. -/
def pipelineCtxs (p : String) : List Ctx :=
  [Ctx.str p,
   Ctx.dict requirementsOutput,
   Ctx.dict (requirementsOutput ++ complianceOutput),
   Ctx.dict (requirementsOutput ++ complianceOutput ++ architectureOutput),
   Ctx.dict (requirementsOutput ++ complianceOutput ++ architectureOutput ++
             costOutput)]

/-- The configured run computes `pipelineResults`, for every problem
string (empty or not): the problem text is never consulted. -/
theorem run_pipeline_eq (p : String) :
    Orchestrator.run pipeline p = .ok pipelineResults := rfl

/-- The final context of the configured run. -/
theorem finalCtx_pipeline_eq (p : String) :
    Orchestrator.finalCtx pipeline p = .ok (Ctx.dict pipelineFinalDict) := rfl

/-- The context trace of the configured run. -/
theorem ctxs_pipeline_eq (p : String) :
    ctxsAux pipeline (Ctx.str p) = .ok (pipelineCtxs p) := rfl

/-- The output trace of the configured run. -/
theorem outputs_pipeline_eq (p : String) :
    outputsAux pipeline (Ctx.str p) = .ok pipelineOutputs := rfl

/-! ## Lemmas about the dict operations -/

/-- `dictGet` over the in-place replacement map of `dictInsert`. -/
theorem dictGet_map_replace {α : Type} (d : PyDict α) (k2 : String) (v : α)
    (k : String) :
    dictGet (d.map (fun p => if p.1 = k2 then (k2, v) else p)) k =
      if k = k2 then (if d.any (fun p => p.1 = k2) then some v else none)
      else dictGet d k := by
  induction d with
  | nil => by_cases h : k = k2 <;> simp [dictGet, h]
  | cons p d ih =>
    simp only [List.map_cons, List.any_cons]
    by_cases hp : p.1 = k2
    · by_cases hk : k = k2
      · subst hk
        simp [dictGet, hp]
      · have h1 : ¬ k2 = k := fun h => hk h.symm
        have h2 : ¬ p.1 = k := fun h => hk ((hp.symm.trans h).symm)
        simp [dictGet, hp, h1, h2, hk, ih]
    · by_cases hk : k = k2
      · subst hk
        simp [dictGet, hp, ih]
        rw [decide_eq_false hp, Bool.false_or]
      · by_cases hpk : p.1 = k
        · simp [dictGet, hp, hpk, hk]
        · simp [dictGet, hp, hpk, hk, ih]

/-- `dictGet` after appending a fresh key. -/
theorem dictGet_append_single {α : Type} (d : PyDict α) (k2 : String) (v : α)
    (k : String) (h : d.any (fun p => p.1 = k2) = false) :
    dictGet (d ++ [(k2, v)]) k = if k = k2 then some v else dictGet d k := by
  induction d with
  | nil =>
    by_cases hk : k = k2
    · simp [dictGet, hk]
    · simp [dictGet, hk, Ne.symm hk]
  | cons p d ih =>
    simp only [List.any_cons, Bool.or_eq_false_iff, decide_eq_false_iff_not] at h
    have ih2 := ih h.2
    by_cases hpk : p.1 = k <;> by_cases hk : k = k2
    · exact absurd (hpk.trans hk) h.1
    · simp [dictGet, List.cons_append, hpk, hk]
    · have hp2 : ¬ p.1 = k2 := fun hh => hpk (hh.trans hk.symm)
      subst hk
      simp [dictGet, List.cons_append, hpk, hp2, ih2]
    · simp [dictGet, List.cons_append, hpk, hk, ih2]

/-- The characteristic equation of `dictInsert` under `dictGet`. -/
theorem dictGet_dictInsert {α : Type} (d : PyDict α) (k2 : String) (v : α)
    (k : String) :
    dictGet (dictInsert d k2 v) k = if k = k2 then some v else dictGet d k := by
  rw [dictInsert]
  by_cases hany : d.any (fun p => p.1 = k2)
  · rw [if_pos hany, dictGet_map_replace]
    simp [hany]
  · rw [if_neg hany, dictGet_append_single]
    exact Bool.eq_false_iff.mpr hany

/-- A key outside a dict's key list looks up to `none`. -/
theorem dictGet_eq_none_of_not_mem {α : Type} (d : PyDict α) (k : String)
    (h : ¬ k ∈ dictKeys d) : dictGet d k = none := by
  induction d with
  | nil => rfl
  | cons p d ih =>
    simp only [dictKeys, List.map_cons, List.mem_cons, not_or] at h
    rw [dictGet, if_neg (fun hh => h.1 hh.symm)]
    exact ih (by simpa [dictKeys] using h.2)

/-- Merging a dict whose keys avoid `k` does not change lookup at `k`. -/
theorem dictGet_dictMerge_not_mem {α : Type} (a b : PyDict α) (k : String)
    (h : ¬ k ∈ dictKeys b) : dictGet (dictMerge a b) k = dictGet a k := by
  induction b generalizing a with
  | nil => rfl
  | cons p b ih =>
    simp only [dictKeys_cons, List.mem_cons, not_or] at h
    have hstep : dictMerge a (p :: b) = dictMerge (dictInsert a p.1 p.2) b := rfl
    rw [hstep, ih _ h.2, dictGet_dictInsert, if_neg h.1]

/-- Right bias of `dictMerge`: a key of `b` (with `b` key-duplicate-free,
as every dict built by the program is) looks up to its value in `b`. -/
theorem dictGet_dictMerge_mem {α : Type} (a b : PyDict α) (k : String)
    (hmem : k ∈ dictKeys b) (hnd : (dictKeys b).Nodup) :
    dictGet (dictMerge a b) k = dictGet b k := by
  induction b generalizing a with
  | nil => cases hmem
  | cons p b ih =>
    have hstep : dictMerge a (p :: b) = dictMerge (dictInsert a p.1 p.2) b := rfl
    rw [dictKeys_cons] at hnd
    have hnd2 : (dictKeys b).Nodup := hnd.of_cons
    simp only [dictKeys_cons, List.mem_cons] at hmem
    by_cases hk : k = p.1
    · have hknotb : ¬ k ∈ dictKeys b := by
        rw [hk]
        exact (List.nodup_cons.mp hnd).1
      rw [hstep, dictGet_dictMerge_not_mem _ _ _ hknotb, dictGet_dictInsert,
        if_pos hk]
      simp [dictGet, hk]
    · rcases hmem with h1 | h1
      · exact absurd h1 hk
      · rw [hstep, ih _ h1 hnd2]
        simp [dictGet, Ne.symm hk]

/-! ## Lemmas about the orchestration loop -/

/-- The key list a context exposes (the string seed has none). -/
def ctxKeys (c : Ctx) : List String :=
  match c with
  | .str _ => []
  | .dict d => dictKeys d

/-- A merge step with an output that avoids `k` leaves lookup at `k`
unchanged (the string seed has no keys to begin with). -/
theorem ctxGet_stepCtx_not_mem (c : Ctx) (o : PyDict Value) (k : String)
    (h : ¬ k ∈ dictKeys o) : ctxGet (stepCtx c o) k = ctxGet c k := by
  cases c with
  | str s => simp [stepCtx, ctxGet, dictGet_eq_none_of_not_mem o k h]
  | dict d => simp [stepCtx, ctxGet, dictGet_dictMerge_not_mem d o k h]

/-- A merge step makes the incoming output win at each of its keys. -/
theorem ctxGet_stepCtx_mem (c : Ctx) (o : PyDict Value) (k : String)
    (hmem : k ∈ dictKeys o) (hnd : (dictKeys o).Nodup) :
    ctxGet (stepCtx c o) k = dictGet o k := by
  cases c with
  | str s => rfl
  | dict d => simp [stepCtx, ctxGet, dictGet_dictMerge_mem d o k hmem hnd]

/-- Folding outputs none of which mention `k` leaves lookup at `k`
unchanged. -/
theorem ctxGet_applyOutputs_not_mem (outs : List (PyDict Value)) (c : Ctx)
    (k : String) (h : ∀ o ∈ outs, ¬ k ∈ dictKeys o) :
    ctxGet (applyOutputs c outs) k = ctxGet c k := by
  induction outs generalizing c with
  | nil => rfl
  | cons o os ih =>
    have hstep : applyOutputs c (o :: os) = applyOutputs (stepCtx c o) os := rfl
    rw [hstep, ih (stepCtx c o) (fun o2 ho2 => h o2 (List.mem_cons_of_mem _ ho2)),
      ctxGet_stepCtx_not_mem c o k (h o (List.mem_cons_self _ _))]

/-- The last output that mentions `k` decides the folded context at `k`. -/
theorem ctxGet_applyOutputs_last (outs : List (PyDict Value)) (c : Ctx)
    (k : String) (j : Nat) (hj : j < outs.length)
    (hnd : ∀ o ∈ outs, (dictKeys o).Nodup)
    (hkj : k ∈ dictKeys (outs.getD j []))
    (hafter : ∀ o ∈ outs.drop (j + 1), ¬ k ∈ dictKeys o) :
    ctxGet (applyOutputs c outs) k = dictGet (outs.getD j []) k := by
  induction outs generalizing c j with
  | nil => exact absurd hj (by simp)
  | cons o os ih =>
    have hstep : applyOutputs c (o :: os) = applyOutputs (stepCtx c o) os := rfl
    cases j with
    | zero =>
      have hafter2 : ∀ o2 ∈ os, ¬ k ∈ dictKeys o2 := by
        intro o2 ho2
        exact hafter o2 (by simpa using ho2)
      have hk0 : k ∈ dictKeys o := by simpa using hkj
      rw [hstep, ctxGet_applyOutputs_not_mem os (stepCtx c o) k hafter2,
        ctxGet_stepCtx_mem c o k hk0 (hnd o (List.mem_cons_self _ _))]
      simp
    | succ j =>
      have hj2 : j < os.length := by simpa using hj
      have hnd2 : ∀ o2 ∈ os, (dictKeys o2).Nodup :=
        fun o2 ho2 => hnd o2 (List.mem_cons_of_mem _ ho2)
      have hkj2 : k ∈ dictKeys (os.getD j []) := by simpa using hkj
      have hafter2 : ∀ o2 ∈ os.drop (j + 1), ¬ k ∈ dictKeys o2 := by
        intro o2 ho2
        exact hafter o2 (by simpa using ho2)
      rw [hstep, ih (stepCtx c o) j hj2 hnd2 hkj2 hafter2]
      simp

/-- Unfolding equation of the loop body on a nonempty agent list. -/
theorem runAux_cons (a : Agent) (rest : List Agent) (c : Ctx)
    (acc : PyDict (PyDict Value)) :
    Orchestrator.runAux (a :: rest) c acc =
      match a c with
      | .error e => .error e
      | .ok resp =>
        Orchestrator.runAux rest (stepCtx c resp.output)
          (dictInsert acc resp.name resp.output) := rfl

/-- Unfolding equation of the output trace on a nonempty agent list. -/
theorem outputsAux_cons (a : Agent) (rest : List Agent) (c : Ctx) :
    outputsAux (a :: rest) c =
      match a c with
      | .error e => .error e
      | .ok resp =>
        match outputsAux rest (stepCtx c resp.output) with
        | .error e => .error e
        | .ok os => .ok (resp.output :: os) := rfl

/-- The final context of the loop is the fold of the output trace over the
seed. -/
theorem runAux_snd_eq_outputs (agents : List Agent) (c : Ctx)
    (acc : PyDict (PyDict Value)) :
    (Orchestrator.runAux agents c acc).map (fun r => r.2) =
      (outputsAux agents c).map (fun os => applyOutputs c os) := by
  induction agents generalizing c acc with
  | nil => rfl
  | cons a rest ih =>
    rw [runAux_cons, outputsAux_cons]
    cases ha : a c with
    | error e => rfl
    | ok resp =>
      have hih := ih (stepCtx c resp.output) (dictInsert acc resp.name resp.output)
      show Except.map (fun r => r.2)
          (Orchestrator.runAux rest (stepCtx c resp.output)
            (dictInsert acc resp.name resp.output)) =
        Except.map (fun os => applyOutputs c os)
          (match outputsAux rest (stepCtx c resp.output) with
          | .error e => .error e
          | .ok os => .ok (resp.output :: os))
      cases houts : outputsAux rest (stepCtx c resp.output) with
      | error e =>
        rw [houts] at hih
        exact hih
      | ok os =>
        rw [houts] at hih
        exact hih

/-- Splitting the loop at a list append: the suffix runs from the state
the prefix reached, and a prefix error short-circuits. -/
theorem runAux_append (xs ys : List Agent) (c : Ctx)
    (acc : PyDict (PyDict Value)) :
    Orchestrator.runAux (xs ++ ys) c acc =
      (Orchestrator.runAux xs c acc).bind
        (fun rc => Orchestrator.runAux ys rc.2 rc.1) := by
  induction xs generalizing c acc with
  | nil => rfl
  | cons a xs ih =>
    rw [List.cons_append, runAux_cons, runAux_cons]
    cases ha : a c with
    | error e => rfl
    | ok resp =>
      exact ih (stepCtx c resp.output) (dictInsert acc resp.name resp.output)

/-! ## Synthetic stages used in counterexamples and witnesses

`Orchestrator` accepts any list of objects with a `run` method, so stages
other than the five configured ones are legitimate inputs. -/

/-- A stage whose `run` raises. -/
def boomAgent : Agent := fun _ => .error "boom"

/-- A trivial succeeding stage used as a pipeline tail. -/
def probeAgent : Agent := fun _ => .ok ⟨"Probe", []⟩

/-- Two stages that share the stage name "dup". -/
def dupAgentA : Agent := fun _ => .ok ⟨"dup", [("v", .vNat 1)]⟩

/-- Second stage of the duplicate-name pair. -/
def dupAgentB : Agent := fun _ => .ok ⟨"dup", [("v", .vNat 2)]⟩

/-- Two stages that both set the field "k". -/
def overwriteAgentA : Agent := fun _ => .ok ⟨"A", [("k", .vNat 1)]⟩

/-- Second stage of the overwriting pair. -/
def overwriteAgentB : Agent := fun _ => .ok ⟨"B", [("k", .vNat 2)]⟩

/-! ## The claims -/

/-- Claim C1: for every non-empty problem string, `Orchestrator.run` over
the configured stage sequence returns a result whose per-stage mapping has
exactly one entry per configured Stage, keyed by that Stage's name, with
insertion order equal to the configured execution order. -/
theorem claim1_per_stage_mapping (p : String) (hp : p ≠ "") :
    ∃ r, Orchestrator.run pipeline p = .ok r ∧
      dictKeys r = pipelineNames ∧ (dictKeys r).Nodup ∧
      r.length = pipeline.length :=
  ⟨pipelineResults, run_pipeline_eq p, rfl, by decide, rfl⟩

/-- Witness for C1 at the problem "plan a store". -/
theorem claim1_witness :
    ∃ r, Orchestrator.run pipeline "plan a store" = .ok r ∧
      dictKeys r = pipelineNames ∧ (dictKeys r).Nodup ∧
      r.length = pipeline.length :=
  claim1_per_stage_mapping "plan a store" (by decide)

/-- Claim C2 counterexample: at problem "x" the value returned by
`Orchestrator.run` is the per-stage mapping alone; the final merged
context exists only as the dropped loop variable and equals none of the
returned entries, so the result contains no final-context snapshot. -/
theorem claim2_counterexample :
    Orchestrator.run pipeline "x" = .ok pipelineResults ∧
    Orchestrator.finalCtx pipeline "x" = .ok (Ctx.dict pipelineFinalDict) ∧
    pipelineResults.any (fun e => decide (e.2 = pipelineFinalDict)) = false ∧
    dictKeys pipelineResults = pipelineNames :=
  ⟨rfl, rfl, by decide, rfl⟩

/-- Claim C2 amended: for every problem string, `Orchestrator.run` returns
only the per-stage mapping of Findings; the merged context after the last
Stage is computed but not included in the returned value. -/
theorem claim2_amended (p : String) :
    Orchestrator.run pipeline p = .ok pipelineResults ∧
    Orchestrator.finalCtx pipeline p = .ok (Ctx.dict pipelineFinalDict) ∧
    pipelineResults.any (fun e => decide (e.2 = pipelineFinalDict)) = false :=
  ⟨rfl, rfl, by decide⟩

/-- Claim C3 counterexample: at problem "x" the context is seeded as the
raw string, not as the mapping with key "problem", and the context the
second Stage receives has no "problem" key. -/
theorem claim3_counterexample :
    ctxsAux pipeline (Ctx.str "x") = .ok (pipelineCtxs "x") ∧
    decide ((pipelineCtxs "x").getD 0 (Ctx.dict []) =
      Ctx.dict [("problem", Value.vStr "x")]) = false ∧
    ctxGet ((pipelineCtxs "x").getD 1 (Ctx.dict [])) "problem" = none :=
  ⟨rfl, by decide, by decide⟩

/-- Claim C3 amended: the context is seeded as the raw problem string (the
first Stage receives the string itself); every later Stage receives a dict
whose key set contains every field key produced by the Stages that ran
earlier, but never a "problem" key. -/
theorem claim3_amended (p : String) :
    ctxsAux pipeline (Ctx.str p) = .ok (pipelineCtxs p) ∧
    (pipelineCtxs p).getD 0 (Ctx.dict []) = Ctx.str p ∧
    (∀ i, i < 5 → ∀ m, m < i →
      dictKeys (pipelineOutputs.getD m []) ⊆
        ctxKeys ((pipelineCtxs p).getD i (Ctx.dict []))) ∧
    (∀ i, 1 ≤ i → i < 5 →
      ctxGet ((pipelineCtxs p).getD i (Ctx.dict [])) "problem" = none) := by
  have e1 : (pipelineCtxs p).getD 1 (Ctx.dict []) =
      Ctx.dict requirementsOutput := rfl
  have e2 : (pipelineCtxs p).getD 2 (Ctx.dict []) =
      Ctx.dict (requirementsOutput ++ complianceOutput) := rfl
  have e3 : (pipelineCtxs p).getD 3 (Ctx.dict []) =
      Ctx.dict (requirementsOutput ++ complianceOutput ++
        architectureOutput) := rfl
  have e4 : (pipelineCtxs p).getD 4 (Ctx.dict []) =
      Ctx.dict (requirementsOutput ++ complianceOutput ++
        architectureOutput ++ costOutput) := rfl
  refine ⟨rfl, rfl, ?_, ?_⟩
  · intro i hi m hm
    interval_cases i
    · omega
    · rw [e1]; interval_cases m <;> decide
    · rw [e2]; interval_cases m <;> decide
    · rw [e3]; interval_cases m <;> decide
    · rw [e4]; interval_cases m <;> decide
  · intro i h1 h5
    interval_cases i
    · rw [e1]; decide
    · rw [e2]; decide
    · rw [e3]; decide
    · rw [e4]; decide

/-- Witness for C3 as amended, at problem "x", third context, first
stage's keys. -/
theorem claim3_amended_witness :
    "users_per_day" ∈ ctxKeys ((pipelineCtxs "x").getD 2 (Ctx.dict [])) ∧
    ctxGet ((pipelineCtxs "x").getD 1 (Ctx.dict [])) "problem" = none :=
  ⟨(claim3_amended "x").2.2.1 2 (by decide) 0 (by decide) (by decide),
   (claim3_amended "x").2.2.2 1 (by decide) (by decide)⟩

/-- Claim C4 counterexample: prepending a raising stage to the configured
pipeline makes `Orchestrator.run` raise: no conservative default Finding
is substituted, no later Stage runs, and no RunResult is returned. -/
theorem claim4_counterexample :
    Orchestrator.run (boomAgent :: pipeline) "x" = .error "boom" := rfl

/-- Claim C4 amended: a Stage fault is not recovered: if the stages before
`a` succeed and leave context `c`, and `a` raises `e` on `c`, then
`Orchestrator.run` propagates the exception and returns no result at all
(with the five configured stages no fault occurs, so those runs do
complete). -/
theorem claim4_amended (pre post : List Agent) (a : Agent) (p e : String)
    (c : Ctx) (hpre : Orchestrator.finalCtx pre p = .ok c)
    (ha : a c = .error e) :
    Orchestrator.run (pre ++ a :: post) p = .error e := by
  have hrun : ∃ r, Orchestrator.runAux pre (Ctx.str p) [] = .ok (r, c) := by
    unfold Orchestrator.finalCtx at hpre
    cases hr2 : Orchestrator.runAux pre (Ctx.str p) [] with
    | error e2 =>
      rw [hr2] at hpre
      exact absurd hpre (by simp [Except.map])
    | ok rc =>
      obtain ⟨r0, c0⟩ := rc
      rw [hr2] at hpre
      have hc : c0 = c := by simpa [Except.map] using hpre
      exact ⟨r0, by rw [hc]⟩
  obtain ⟨r, hr⟩ := hrun
  unfold Orchestrator.run
  rw [runAux_append, hr]
  show (Orchestrator.runAux (a :: post) c r).map (fun x => x.1) = .error e
  rw [runAux_cons, ha]
  rfl

/-- Witness for C4 as amended: a raising first stage, one stage after. -/
theorem claim4_amended_witness :
    Orchestrator.run [boomAgent, probeAgent] "x" = .error "boom" :=
  claim4_amended [] [probeAgent] boomAgent "x" "boom" (Ctx.str "x") rfl rfl

/-- Claim C5 counterexample: the constructor accepts the empty sequence
and a duplicate-name sequence without failing, and `run` is accepted on
both (with duplicate names collapsing to a single entry). -/
theorem claim5_counterexample :
    Orchestrator.init [] = .ok [] ∧
    Orchestrator.run [] "x" = .ok [] ∧
    Orchestrator.init [dupAgentA, dupAgentB] = .ok [dupAgentA, dupAgentB] ∧
    Orchestrator.run [dupAgentA, dupAgentB] "x" =
      .ok [("dup", [("v", Value.vNat 2)])] :=
  ⟨rfl, rfl, rfl, rfl⟩

/-- Claim C5 amended: construction performs no validation and never
fails: every agent list is stored as given; a run on the empty sequence
returns an empty mapping, and a run over two stages with the same name
returns one entry holding the later stage's output. -/
theorem claim5_amended (agents : List Agent) (p : String) :
    Orchestrator.init agents = .ok agents ∧
    Orchestrator.run [] p = .ok [] ∧
    Orchestrator.run [dupAgentA, dupAgentB] p =
      .ok [("dup", [("v", Value.vNat 2)])] :=
  ⟨rfl, rfl, rfl⟩

/-- All values stored in the fixed lookup mapping are non-empty. -/
theorem simulated_results_values (topic v : String)
    (h : dictGet simulated_results topic = some v) : v ≠ "" := by
  simp only [simulated_results, dictGet] at h
  split at h
  · injection h with h2; subst h2; decide
  · split at h
    · injection h with h2; subst h2; decide
    · split at h
      · injection h with h2; subst h2; decide
      · split at h
        · injection h with h2; subst h2; decide
        · cases h

/-- Claim C6: for every topic string (including ""), `query` returns,
without raising, a non-empty string: the stored entry verbatim when the
topic is known, otherwise the marked fallback naming the topic; and it is
deterministic (a pure function, so equal calls give equal results). -/
theorem claim6_query_total (topic : String) :
    ResearchAgent.query topic ≠ "" ∧
    (∀ v, dictGet simulated_results topic = some v →
      ResearchAgent.query topic = v) ∧
    (dictGet simulated_results topic = none →
      ResearchAgent.query topic =
        "No relevant info found for \x27" ++ topic ++ "\x27.") ∧
    ResearchAgent.query topic = ResearchAgent.query topic := by
  cases h : dictGet simulated_results topic with
  | none =>
    have hq : ResearchAgent.query topic =
        "No relevant info found for \x27" ++ topic ++ "\x27." := by
      unfold ResearchAgent.query dictGetD
      rw [h]
      rfl
    refine ⟨?_, ?_, fun _ => hq, rfl⟩
    · rw [hq]
      intro hcon
      have hlen := congrArg String.length hcon
      rw [String.length_append, String.length_append] at hlen
      have h1 : ("No relevant info found for \x27").length = 28 := rfl
      have h2 : ("\x27.").length = 2 := rfl
      have h0 : ("" : String).length = 0 := rfl
      rw [h1, h2, h0] at hlen
      omega
    · intro v hv
      cases hv
  | some v =>
    have hq : ResearchAgent.query topic = v := by
      unfold ResearchAgent.query dictGetD
      rw [h]
      rfl
    refine ⟨?_, fun w hw => ?_, ?_, rfl⟩
    · rw [hq]
      exact simulated_results_values topic v h
    · injection hw with hw2
      rw [hq, hw2]
    · intro hnone
      cases hnone

/-- Witness for C6: a known topic returns its entry verbatim, an unknown
topic returns the marked fallback. -/
theorem claim6_witness :
    ResearchAgent.query "GDPR" =
      "Retrieved GDPR checklist from official EU documentation." ∧
    ResearchAgent.query "warp drive" =
      "No relevant info found for \x27warp drive\x27." :=
  ⟨(claim6_query_total "GDPR").2.1 _ rfl,
   (claim6_query_total "warp drive").2.2.1 rfl⟩

/-- Claim C7: when the data-category field contains neither regulated
category, `ComplianceAgent.run` returns a Finding whose
required-compliance field is the explicit `["None"]` sentinel, not an
empty or absent list. -/
theorem claim7_compliance_sentinel (d : PyDict Value)
    (hp : pyInValue "payment_info" (dictGetD d "data_types" (.vList [])) =
      .ok false)
    (hu : pyInValue "user_profiles" (dictGetD d "data_types" (.vList [])) =
      .ok false) :
    ∃ resp, ComplianceAgent.run (Ctx.dict d) = .ok resp ∧
      resp.name = "ComplianceAgent" ∧
      dictGet resp.output "required_compliance" =
        some (Value.vList ["None"]) := by
  have hrun : ComplianceAgent.run (Ctx.dict d) = .ok ⟨"ComplianceAgent",
      [("required_compliance", .vList ["None"]),
       ("security_controls",
        .vList ["Encryption at rest/in transit", "Least-privilege IAM",
                "WAF, audit logging"]),
       ("research_notes", .vList [])]⟩ := by
    unfold ComplianceAgent.run
    simp only [hp, hu]
    rfl
  exact ⟨_, hrun, rfl, by decide⟩

/-- Witness for C7 at the empty context (data-category defaults to the
empty list). -/
theorem claim7_witness :
    ∃ resp, ComplianceAgent.run (Ctx.dict []) = .ok resp ∧
      resp.name = "ComplianceAgent" ∧
      dictGet resp.output "required_compliance" =
        some (Value.vList ["None"]) :=
  claim7_compliance_sentinel [] rfl rfl

/-- Claim C8: right-biased merge: in any run whose stages all succeed, if
Findings `i` and `j` (`i < j`) both set the field `k` and no Finding after
`j` sets it again, then the final merged context's value at `k` is Finding
`j`'s value. -/
theorem claim8_right_biased_merge (agents : List Agent) (p k : String)
    (outs : List (PyDict Value)) (i j : Nat)
    (houts : outputsAux agents (Ctx.str p) = .ok outs)
    (hnd : ∀ o ∈ outs, (dictKeys o).Nodup)
    (hij : i < j) (hj : j < outs.length)
    (hki : k ∈ dictKeys (outs.getD i []))
    (hkj : k ∈ dictKeys (outs.getD j []))
    (hafter : ∀ o ∈ outs.drop (j + 1), ¬ k ∈ dictKeys o) :
    Orchestrator.finalCtx agents p = .ok (applyOutputs (Ctx.str p) outs) ∧
    ctxGet (applyOutputs (Ctx.str p) outs) k = dictGet (outs.getD j []) k := by
  constructor
  · unfold Orchestrator.finalCtx
    have hb := runAux_snd_eq_outputs agents (Ctx.str p) []
    rw [houts] at hb
    exact hb
  · exact ctxGet_applyOutputs_last outs (Ctx.str p) k j hj hnd hkj hafter

/-- Witness for C8: two stages both set "k"; the final context holds the
later value. -/
theorem claim8_witness :
    Orchestrator.finalCtx [overwriteAgentA, overwriteAgentB] "x" =
      .ok (applyOutputs (Ctx.str "x")
        [[("k", Value.vNat 1)], [("k", Value.vNat 2)]]) ∧
    ctxGet (applyOutputs (Ctx.str "x")
        [[("k", Value.vNat 1)], [("k", Value.vNat 2)]]) "k" =
      dictGet ([[("k", Value.vNat 1)], [("k", Value.vNat 2)]].getD 1 []) "k" :=
  claim8_right_biased_merge [overwriteAgentA, overwriteAgentB] "x" "k"
    [[("k", Value.vNat 1)], [("k", Value.vNat 2)]] 0 1 rfl (by decide)
    (by decide) (by decide) (by decide) (by decide) (by decide)

/-- Claim C9 counterexample: on a context missing every upstream field,
`ReviewAgent.run` does return a Finding, but its risks are the two fixed
entries and "insufficient information" is not among them. -/
theorem claim9_counterexample :
    ReviewAgent.run (Ctx.dict []) = .ok ⟨"ReviewAgent", reviewOutput⟩ ∧
    dictGet reviewOutput "risks" = some (.vList ReviewAgent.risks) ∧
    ReviewAgent.risks.contains "insufficient information" = false :=
  ⟨rfl, by decide, by decide⟩

/-- Claim C9 amended: `ReviewAgent.run` never raises and returns the same
constant Finding on every context; when upstream fields are missing it
does not record "insufficient information" (its risks are always the two
fixed entries). -/
theorem claim9_amended (ctx : Ctx) :
    ReviewAgent.run ctx = .ok ⟨"ReviewAgent", reviewOutput⟩ ∧
    ReviewAgent.risks.contains "insufficient information" = false :=
  ⟨rfl, by decide⟩

/-- Claim C10: `CostEstimationAgent.run` ignores its input entirely: any
two contexts produce Findings equal in every field, namely the fixed cost
output. -/
theorem claim10_cost_constant (c1 c2 : Ctx) :
    CostEstimationAgent.run c1 = CostEstimationAgent.run c2 ∧
    CostEstimationAgent.run c1 = .ok ⟨"CostEstimationAgent", costOutput⟩ :=
  ⟨rfl, rfl⟩

end Orch
